import Mathlib

/-!
Verification of the minimalistic-deploy action execution engine.

The Python sources are shallowly embedded as executable Lean definitions:

- the recursive template renderer (Host.render_string in host.py) over a
  character-level model of jinja2 placeholder substitution with strict
  undefined behaviour;
- the expression evaluator (Host.evaluate_expression) with its literal
  prefix dispatch and first-paren extraction;
- the remote command builders (SSHClient.exec_command and
  SSHClient.exec_rsync in ssh_client.py);
- the stat and copy action handlers (Host.execute_stat, Host.execute_copy);
- the run loop (work in main.py) with its per-host error counter.

External collaborators (the jinja2 library, the Python eval builtin, the
SSH and rsync subprocesses, the local filesystem) are modelled as explicit
oracle parameters or, where the spec fixes their behaviour, as small
definitions whose doc comments say so.
-/

namespace MiniDeploy

/-- Python str.startswith on character lists: the first argument is the
candidate string, the second the tested literal prefix. -/
def pyStartsChars : List Char → List Char → Bool
  | _, [] => true
  | [], _ :: _ => false
  | c :: cs, p :: ps => c = p && pyStartsChars cs ps

/-- Python str.startswith at the String level. -/
def pyStartswith (s p : String) : Bool := pyStartsChars s.data p.data

/-- Two textual literal prefixes of the same string: the shorter one is a
prefix of the longer one. Used to show that the dispatch branches of
evaluate_expression are mutually exclusive. -/
theorem pyStartsChars_trans {l p q : List Char}
    (hp : pyStartsChars l p = true) (hq : pyStartsChars l q = true)
    (hlen : p.length ≤ q.length) : pyStartsChars q p = true := by
  induction p generalizing q l with
  | nil => cases q <;> simp [pyStartsChars]
  | cons p0 ps ih =>
    cases l with
    | nil => simp [pyStartsChars] at hp
    | cons c cs =>
      cases q with
      | nil => simp at hlen
      | cons q0 qs =>
        simp only [pyStartsChars, Bool.and_eq_true, decide_eq_true_eq] at hp hq ⊢
        refine ⟨hq.1.symm.trans hp.1, ih hp.2 hq.2 (Nat.succ_le_succ_iff.mp hlen)⟩

/-- Whitespace stripping as done by Python str.strip and by jinja2 around
placeholder names. -/
def trimChars (l : List Char) : List Char :=
  ((l.dropWhile Char.isWhitespace).reverse.dropWhile Char.isWhitespace).reverse

/-- First-match lookup in an association list, the model of a Python dict
lookup for string-valued contexts. -/
def lookupCtx : List (String × String) → String → Option String
  | [], _ => Option.none
  | (k, v) :: rest, key => if k = key then some v else lookupCtx rest key

/-- Scan up to the closing marker of a jinja2 placeholder: splits the
character stream at the first occurrence of two closing braces, returning
the text before it and the remainder after it. -/
def splitAtClose : List Char → Option (List Char × List Char)
  | '}' :: '}' :: rest => some ([], rest)
  | c :: rest => (splitAtClose rest).map (fun p => (c :: p.1, p.2))
  | [] => Option.none

/-- Modelled from the spec: one jinja2 rendering pass with StrictUndefined,
as invoked by Host.render_string (host.py line 129). The template text is
copied verbatim except that every placeholder (a name between doubled
braces) is replaced by the value of that name in the context; a missing
name is an error (jinja2 UndefinedError under StrictUndefined), as is an
unclosed placeholder. Substituted values are not rescanned within the same
pass, which is exactly why the source iterates the pass to a fixed point.
The fuel argument only drives structural recursion; one unit is consumed
per character of input, so the initial fuel of substOnceS never runs out. -/
def substAux (ctx : List (String × String)) : Nat → List Char → Except Unit (List Char)
  | _, [] => .ok []
  | 0, _ :: _ => .error ()
  | fuel + 1, '{' :: '{' :: rest =>
    match splitAtClose rest with
    | Option.none => .error ()
    | some (nm, rest2) =>
      match lookupCtx ctx (String.mk (trimChars nm)) with
      | Option.none => .error ()
      | some v => (substAux ctx fuel rest2).map (fun r => v.data ++ r)
  | fuel + 1, c :: rest => (substAux ctx fuel rest).map (fun r => c :: r)

/-- One jinja2 rendering pass at the String level. -/
def substOnceS (ctx : List (String × String)) (s : String) : Except Unit String :=
  (substAux ctx s.data.length s.data).map String.mk

/-- The while-True loop of Host.render_string.recursive_render (host.py
lines 126-133), made total by an explicit fuel: ok none means the loop has
not yet returned after the given number of iterations, ok (some s) means it
returned s, error means a rendering pass raised. The source imposes no
bound at all: its behaviour is the supremum over all fuels. -/
def renderLoopS (ctx : List (String × String)) : Nat → String → Except Unit (Option String)
  | 0, _ => .ok Option.none
  | fuel + 1, prev =>
    match substOnceS ctx prev with
    | .error e => .error e
    | .ok curr => if curr = prev then .ok (some curr) else renderLoopS ctx fuel curr

/-- Host.render_string terminates on this input and returns s. -/
def renders (ctx : List (String × String)) (t s : String) : Prop :=
  ∃ n, renderLoopS ctx n t = .ok (some s)

/-- Host.render_string loops forever on this input: no amount of fuel makes
the loop return or raise. -/
def renderDiverges (ctx : List (String × String)) (t : String) : Prop :=
  ∀ n, renderLoopS ctx n t = .ok Option.none

/-- The substitution iteration of Host.render_string steps from t to u in
zero or more non-stabilizing passes. -/
inductive Reaches (ctx : List (String × String)) : String → String → Prop where
  | refl (t : String) : Reaches ctx t t
  | step {t u v : String} : substOnceS ctx t = .ok u → u ≠ t →
      Reaches ctx u v → Reaches ctx t v

/-- When the render loop returns a value, that value is a fixed point of the
substitution pass. -/
theorem renderLoopS_fix {ctx : List (String × String)} {n : Nat} {t s : String}
    (h : renderLoopS ctx n t = .ok (some s)) : substOnceS ctx s = .ok s := by
  induction n generalizing t with
  | zero => simp [renderLoopS] at h
  | succ m ih =>
    rw [renderLoopS] at h
    cases hs : substOnceS ctx t with
    | error e => simp [hs] at h
    | ok curr =>
      simp only [hs] at h
      by_cases hc : curr = t
      · rw [if_pos hc] at h
        obtain rfl : curr = s := by simpa using h
        rw [hc] at hs ⊢; exact hs
      · rw [if_neg hc] at h; exact ih h

/-- When the render loop ever reaches a string on which the next pass
raises, the loop raises: it never returns a string. -/
theorem reaches_error_no_return {ctx : List (String × String)} {t u : String}
    (h : Reaches ctx t u) (he : substOnceS ctx u = .error ()) :
    (∀ n s, renderLoopS ctx n t ≠ .ok (some s)) ∧
      (∃ n, renderLoopS ctx n t = .error ()) := by
  induction h with
  | refl t =>
    constructor
    · intro n s hn
      cases n with
      | zero => simp [renderLoopS] at hn
      | succ m => simp [renderLoopS, he] at hn
    · exact ⟨1, by simp [renderLoopS, he]⟩
  | step hsub hne _ ih =>
    constructor
    · intro n s hn
      cases n with
      | zero => simp [renderLoopS] at hn
      | succ m =>
        rw [renderLoopS] at hn
        simp only [hsub] at hn
        rw [if_neg hne] at hn
        exact (ih he).1 m s hn
    · obtain ⟨m, hm⟩ := (ih he).2
      refine ⟨m + 1, ?_⟩
      rw [renderLoopS]
      simp only [hsub]
      rw [if_neg hne]
      exact hm

/-- The scalar values that occur in action parameters and results: Python
strings, booleans, integers and None. -/
inductive Scalar where
  | str (s : String)
  | bool (b : Bool)
  | int (n : Int)
  | none
deriving DecidableEq

/-- A value handled by the evaluator and the result registry: a scalar or a
string-keyed mapping of scalars (the shape of stat results). -/
inductive Value where
  | scalar (sc : Scalar)
  | dict (d : List (String × Scalar))
deriving DecidableEq

/-- Python truthiness of a scalar. -/
def Scalar.isTruthy : Scalar → Bool
  | .str s => !(s == "")
  | .bool b => b
  | .int n => !(n == 0)
  | .none => false

/-- Python truthiness of a value: empty strings, False, 0, None and empty
mappings are falsy, everything else truthy. -/
def Value.isTruthy : Value → Bool
  | .scalar sc => sc.isTruthy
  | .dict d => !d.isEmpty

/-- Python str() on a scalar. -/
def pyStrS : Scalar → String
  | .str s => s
  | .bool b => if b then "True" else "False"
  | .int n => toString n
  | .none => "None"

def pyFindAux (c : Char) : List Char → Option Nat
  | [] => Option.none
  | x :: rest => if x = c then some 0 else (pyFindAux c rest).map (· + 1)

/-- Python str.find: index of the first occurrence of the character, or -1
when absent. -/
def pyFind (s : String) (c : Char) : Int :=
  match pyFindAux c s.data with
  | some n => n
  | Option.none => -1

def pySliceIndex (n : Nat) (i : Int) : Nat :=
  if i < 0 then ((n : Int) + i).toNat else min i.toNat n

/-- Python slicing s[a:b], including negative-index wrapping. -/
def pySlice (s : String) (a b : Int) : String :=
  let n := s.data.length
  String.mk ((s.data.drop (pySliceIndex n a)).take (pySliceIndex n b - pySliceIndex n a))

/-- The inner text taken by Host.evaluate_expression (host.py lines
177-179): the substring between the first opening and the first closing
parenthesis of the whole rendered text, with Python find and slice
semantics, so nested parentheses inside the argument are cut short. -/
def extractInner (text : String) : String :=
  pySlice text (pyFind text '(' + 1) (pyFind text ')')

inductive EvalErr where
  | undefinedVariable
  | keyNotFound
deriving DecidableEq

/-- The result registry of a host: register name to last recorded value. -/
abbrev Results := List (String × Value)

/-- Oracles for the external collaborators of the expression evaluator: the
Python eval builtin applied to the inner text (pyEval, total, modelling
well-formed input), Python eval with self in scope as used by the results[
branch (pyEvalSelf), and the outcome of the remote existence test command
used outside dry-run mode (remoteExists, taking the evaluated path value
and the dir flag). -/
structure EvalEnv where
  pyEval : String → Value
  pyEvalSelf : Results → String → Except EvalErr Value
  remoteExists : Value → Bool → Bool

/-- Host.check_remote_path_exists (host.py lines 226-246): in dry-run mode
it returns False immediately, before any remote command is built or run;
otherwise the remote test command decides. -/
def check_remote_path_exists (env : EvalEnv) (dry_run : Bool) (path : Value)
    (dir : Bool) : Bool :=
  if dry_run then false else env.remoteExists path dir

/-- The dispatch of Host.evaluate_expression (host.py lines 175-196) on the
already-rendered text: literal prefix matching in source order, the inner
text taken between the first opening and first closing parenthesis. -/
def evaluateRendered (env : EvalEnv) (dry_run : Bool) (results : Results)
    (text : String) : Except EvalErr Value :=
  let inner := extractInner text
  if pyStartswith text "results[" then env.pyEvalSelf results text
  else if pyStartswith text "eval(" then .ok (env.pyEval inner)
  else if pyStartswith text "not_exists_dir(" then
    .ok (.scalar (.bool (!check_remote_path_exists env dry_run (env.pyEval inner) true)))
  else if pyStartswith text "exists_dir(" then
    .ok (.scalar (.bool (check_remote_path_exists env dry_run (env.pyEval inner) true)))
  else if pyStartswith text "not_exists_file(" then
    .ok (.scalar (.bool (!check_remote_path_exists env dry_run (env.pyEval inner) false)))
  else if pyStartswith text "exists_file(" then
    .ok (.scalar (.bool (check_remote_path_exists env dry_run (env.pyEval inner) false)))
  else .ok (.scalar (.str text))

/-- Host.evaluate_expression (host.py lines 149-196): render the raw
expression through render_string, then dispatch on the rendered text. The
fuel drives the render loop; ok none means the render loop had not yet
returned within that many iterations. -/
def evaluate_expression (env : EvalEnv) (dry_run : Bool)
    (ctx : List (String × String)) (results : Results) (fuel : Nat)
    (expression : String) : Except EvalErr (Option Value) :=
  match renderLoopS ctx fuel expression with
  | .error _ => .error .undefinedVariable
  | .ok Option.none => .ok Option.none
  | .ok (some text) => (evaluateRendered env dry_run results text).map some

/-- The Action dataclass (action.py) with its default values. -/
structure Action where
  title : String := ""
  type : String := ""
  become : Bool := false
  become_user : String := ""
  timeout : Nat := 0
  wrap_bash : Bool := true
  when : String := ""
  register : String := ""
  items : List String := []
  extra : List (String × Scalar) := []
deriving DecidableEq

/-- What the guard step of Host.run_action decides: skip the action, or
enter the routing that runs the handler for the given action type. -/
inductive Dispatch where
  | skipped
  | handler (type : String)
deriving DecidableEq

/-- The guard and routing step of Host.run_action (host.py lines 61-119):
when a when expression is present it is evaluated and a falsy result skips
the action; otherwise the handler for the action type is entered. -/
def run_action_dispatch (env : EvalEnv) (dry_run : Bool)
    (ctx : List (String × String)) (results : Results) (fuel : Nat)
    (action : Action) : Except EvalErr (Option Dispatch) :=
  if action.when ≠ "" then
    match evaluate_expression env dry_run ctx results fuel action.when with
    | .error e => .error e
    | .ok Option.none => .ok Option.none
    | .ok (some v) => .ok (some (if v.isTruthy then .handler action.type else .skipped))
  else .ok (some (.handler action.type))

def parseNatAux : Nat → List Char → Option Nat
  | acc, [] => some acc
  | acc, c :: rest =>
    if c.isDigit then parseNatAux (acc * 10 + (c.toNat - 48)) rest else Option.none

def parseIntTok : List Char → Option Int
  | [] => Option.none
  | '-' :: rest => if rest.isEmpty then Option.none else (parseNatAux 0 rest).map (fun n => -(n : Int))
  | l => (parseNatAux 0 l).map (fun n => (n : Int))

def splitSpacesAux : List Char → List Char → List (List Char)
  | cur, [] => [cur.reverse]
  | cur, ' ' :: rest => cur.reverse :: splitSpacesAux [] rest
  | cur, c :: rest => splitSpacesAux (c :: cur) rest

def evalToksAux : Int → List (List Char) → Option Int
  | acc, [] => some acc
  | acc, op :: t :: rest =>
    if op = ['+'] then (parseIntTok t).bind (fun n => evalToksAux (acc + n) rest)
    else if op = ['-'] then (parseIntTok t).bind (fun n => evalToksAux (acc - n) rest)
    else Option.none
  | _, _ :: _ => Option.none

/-- Modelled from the spec: the ambient-language evaluation applied by the
eval( branch, the Python eval builtin, an external collaborator, restricted
here to space-separated integer addition and subtraction, which covers the
expression the spec fixes: eval(1 + 2) evaluates to 3. Unparseable input is
mapped to the Python None value. -/
def pyEvalArith (s : String) : Value :=
  match splitSpacesAux [] s.data with
  | t :: rest =>
    match parseIntTok t with
    | some n =>
      match evalToksAux n rest with
      | some m => .scalar (.int m)
      | Option.none => .scalar .none
    | Option.none => .scalar .none
  | [] => .scalar .none

/-- Exclusion of a shorter prefix: when s starts with p, and q is shorter
than p but not an initial segment of p, then s does not start with q. -/
theorem pyStartswith_excl {s : String} (p q : String)
    (hlen : q.data.length ≤ p.data.length) (hnp : pyStartsChars p.data q.data = false)
    (hs : pyStartswith s p = true) : pyStartswith s q = false := by
  by_contra hq
  rw [Bool.not_eq_false] at hq
  have h2 := pyStartsChars_trans hq hs hlen
  rw [hnp] at h2
  exact Bool.false_ne_true h2

/-- Exclusion of a longer prefix: when s starts with p, and q is longer
than p but does not itself start with p, then s does not start with q. -/
theorem pyStartswith_excl2 {s : String} (p q : String)
    (hlen : p.data.length ≤ q.data.length) (hnp : pyStartsChars q.data p.data = false)
    (hs : pyStartswith s p = true) : pyStartswith s q = false := by
  by_contra hq
  rw [Bool.not_eq_false] at hq
  have h2 := pyStartsChars_trans hs hq hlen
  rw [hnp] at h2
  exact Bool.false_ne_true h2

def escapeQuotesChars : List Char → List Char
  | [] => []
  | '"' :: rest => '\\' :: '"' :: escapeQuotesChars rest
  | c :: rest => c :: escapeQuotesChars rest

/-- The escaping step of SSHClient.exec_command (ssh_client.py line 54):
replace every double quote of the fully assembled inner command by a
backslash-escaped double quote. -/
def escapeQuotes (s : String) : String := String.mk (escapeQuotesChars s.data)

/-- SSHClient._remote_address (ssh_client.py lines 160-165): the optional
user-at prefix followed by the host address. -/
def remoteAddress (ssh_user host : String) : String :=
  (if ssh_user ≠ "" then ssh_user ++ "@" else "") ++ host

/-- exec_command accepts either a single command string or a list of
command strings. -/
inductive CommandArg where
  | str (s : String)
  | list (ss : List String)

/-- The join applied to a list command (ssh_client.py line 29). -/
def joinAnd : List String → String
  | [] => ""
  | [s] => s
  | s :: rest => s ++ " && " ++ joinAnd rest

/-- The command line constructed by SSHClient.exec_command (ssh_client.py
lines 24-73) up to the hand-off to the transport: join a list command,
optionally wrap in an interactive bash invocation that first changes to the
home directory, optionally prefix with the sudo elevation targeting
become_user when set, backslash-escape every double quote of the assembled
inner command, then prepend ssh, the transport options, the optional
connect timeout and the user-at-host address, and append the inner command
as a single double-quoted argument. -/
def exec_command_build (ssh_options : String) (timeout : Nat)
    (ssh_user host : String) (command : CommandArg) (become : Bool)
    (become_user : String) (wrap_bash : Bool) : String :=
  let innerCommand := match command with
    | .list ss => joinAnd ss
    | .str s => s
  let innerCommand :=
    if wrap_bash then "/bin/bash -c \"cd && " ++ innerCommand ++ "\"" else innerCommand
  let innerCommand :=
    if become then
      (if become_user ≠ "" then
        "sudo -H --non-interactive " ++ ("-u " ++ become_user ++ " ")
      else "sudo -H --non-interactive ") ++ innerCommand
    else innerCommand
  let innerCommand := escapeQuotes innerCommand
  let remoteCommand := "ssh " ++ (if ssh_options ≠ "" then ssh_options ++ " " else "")
    ++ (if timeout ≠ 0 then "-o ConnectTimeout=" ++ toString timeout ++ " " else "")
    ++ remoteAddress ssh_user host
  remoteCommand ++ (" \"" ++ innerCommand ++ "\"")

/-- Stated from the spec for comparison: the privilege-elevation prefix
targeting an explicit user. -/
def specSudo (user : String) : String :=
  "sudo -H --non-interactive -u " ++ (user ++ " ")

/-- Stated from the spec for comparison: the shell-wrapped inner command,
cd and the command inside a shell -c invocation. -/
def specBashWrap (command : String) : String :=
  "/bin/bash -c \"cd && " ++ (command ++ "\"")

/-- The transfer invocation constructed by SSHClient.exec_rsync
(ssh_client.py lines 75-103): compression, archive and progress flags, the
optional timeout, the optional skip-existing flag, the optional permission
and ownership override flags, the optional privilege-elevation wrapper
applied to the remote rsync invocation, then the quoted source and the
quoted user-at-host colon destination. The mode parameter is the raw value
taken from the extra mapping: the source tests its Python truthiness before
formatting it into the flag, so a falsy mode of any type emits no flag. -/
def exec_rsync_build (timeout : Nat) (ssh_user host rsync_options : String)
    (source destination : String) (become : Bool) (become_user : String)
    (ignore_existing : Bool) (mode : Scalar) (owner group : String) : String :=
  let c := "rsync -avz --progress "
  let c := c ++ (if timeout ≠ 0 then "--timeout=" ++ toString timeout ++ " " else "")
  let c := c ++ (if ignore_existing then "--ignore-existing " else "")
  let c := c ++ (if mode.isTruthy then "--chmod=\"" ++ pyStrS mode ++ "\" " else "")
  let chown := owner ++ ":" ++ group
  let c := c ++ (if chown.length > 1 then "--chown=\"" ++ chown ++ "\" " else "")
  let c := c ++ (if become then
    "--rsync-path=\"sudo -u " ++ (if become_user ≠ "" then become_user else "root") ++ " rsync\" "
    else "")
  let c := c ++ (if rsync_options ≠ "" then rsync_options ++ " " else "")
  let c := c ++ ("\"" ++ source ++ "\" ")
  c ++ ("\"" ++ remoteAddress ssh_user host ++ ":" ++ destination ++ "\" ")

/-- The state threaded through the run loop of work (main.py lines 89-102):
the per-host error counters and the log of dispatched action-host pairs, a
pair being logged exactly when run_action is invoked for it. Hosts are
identified by their index in the host list, actions by their index in the
action list. -/
structure WorkState where
  errors : Nat → Nat
  log : List (Nat × Nat)

/-- The body of the inner loop of work (main.py lines 94-102): a host with
a positive error counter is passed over; otherwise run_action is dispatched
and, when it raises (the fails oracle), the error counter of that host
alone is incremented. -/
def stepHost (fails : Nat → Nat → Bool) (a : Nat) (st : WorkState) (h : Nat) : WorkState :=
  if st.errors h ≤ 0 then
    let st2 : WorkState := ⟨st.errors, st.log ++ [(a, h)]⟩
    if fails a h then
      ⟨fun h2 => if h2 = h then st2.errors h2 + 1 else st2.errors h2, st2.log⟩
    else st2
  else st

/-- The inner loop of work over the host list. -/
def runHosts (fails : Nat → Nat → Bool) (a : Nat) : WorkState → List Nat → WorkState
  | st, [] => st
  | st, h :: hs => runHosts fails a (stepHost fails a st h) hs

/-- The outer loop of work over the action list. -/
def runActions (fails : Nat → Nat → Bool) (nH : Nat) : WorkState → List Nat → WorkState
  | st, [] => st
  | st, a :: rest => runActions fails nH (runHosts fails a st (List.range nH)) rest

/-- work (main.py lines 89-102) over nA actions and nH hosts, with the
fails oracle telling which action-host runs raise: actions outer, hosts
inner, all error counters starting at zero. -/
def work (fails : Nat → Nat → Bool) (nA nH : Nat) : WorkState :=
  runActions fails nH ⟨fun _ => 0, []⟩ (List.range nA)

/-- Some action with index below k fails on host h. -/
def hostFailedBy (fails : Nat → Nat → Bool) (h k : Nat) : Bool :=
  (List.range k).any (fun a => fails a h)

/-- Effect of one inner-loop step on the error counters: only the counter
of the processed host can change, and it is incremented exactly when it was
zero and the run fails. -/
theorem stepHost_errors (fails : Nat → Nat → Bool) (a : Nat) (st : WorkState)
    (h0 h : Nat) :
    (stepHost fails a st h0).errors h =
      if h = h0 ∧ st.errors h = 0 ∧ fails a h = true then st.errors h + 1
      else st.errors h := by
  unfold stepHost
  by_cases he : st.errors h0 ≤ 0
  · rw [if_pos he]
    by_cases hf : fails a h0
    · rw [if_pos hf]
      by_cases hh : h = h0
      · subst hh
        simp only [if_pos rfl]
        simp [Nat.le_zero.mp he, hf]
      · simp [hh]
    · rw [if_neg hf]
      by_cases hh : h = h0
      · subst hh; simp [hf]
      · simp [hh]
  · rw [if_neg he]
    by_cases hh : h = h0
    · subst hh
      have : ¬ st.errors h = 0 := fun hz => he (Nat.le_of_eq hz)
      simp [this]
    · simp [hh]

/-- Effect of one inner-loop step on the dispatch log: the pair is appended
exactly when the error counter of the host is zero. -/
theorem stepHost_log (fails : Nat → Nat → Bool) (a : Nat) (st : WorkState) (h0 : Nat) :
    (stepHost fails a st h0).log =
      st.log ++ if st.errors h0 = 0 then [(a, h0)] else [] := by
  unfold stepHost
  by_cases he : st.errors h0 ≤ 0
  · rw [if_pos he, if_pos (Nat.le_zero.mp he)]
    by_cases hf : fails a h0 <;> simp [hf]
  · rw [if_neg he, if_neg (fun hz => he (Nat.le_of_eq hz))]
    simp

/-- Error counters after the inner loop over a duplicate-free host list. -/
theorem runHosts_errors (fails : Nat → Nat → Bool) (a : Nat) (hs : List Nat)
    (st : WorkState) (hnd : hs.Nodup) (h : Nat) :
    (runHosts fails a st hs).errors h =
      if h ∈ hs ∧ st.errors h = 0 ∧ fails a h = true then 1 else st.errors h := by
  induction hs generalizing st with
  | nil => simp [runHosts]
  | cons h0 rest ih =>
    have hnd0 : h0 ∉ rest := (List.nodup_cons.mp hnd).1
    have hndr : rest.Nodup := (List.nodup_cons.mp hnd).2
    rw [runHosts, ih _ hndr]
    by_cases hh : h = h0
    · subst hh
      rw [stepHost_errors]
      simp only [if_pos rfl, true_and]
      by_cases hz : st.errors h = 0
      · by_cases hf : fails a h
        · have : h ∉ rest := hnd0
          simp [hz, hf, this, List.mem_cons]
        · simp [hz, hf, hnd0, List.mem_cons]
      · simp [hz, hnd0, List.mem_cons]
    · rw [stepHost_errors]
      simp only [hh, false_and, if_false]
      simp [List.mem_cons, hh]

/-- Dispatch log after the inner loop over a duplicate-free host list: the
hosts whose error counter is zero are dispatched, in order. -/
theorem runHosts_log (fails : Nat → Nat → Bool) (a : Nat) (hs : List Nat)
    (st : WorkState) (hnd : hs.Nodup) :
    (runHosts fails a st hs).log =
      st.log ++ (hs.filter (fun h => st.errors h == 0)).map (fun h => (a, h)) := by
  induction hs generalizing st with
  | nil => simp [runHosts]
  | cons h0 rest ih =>
    have hnd0 : h0 ∉ rest := (List.nodup_cons.mp hnd).1
    have hndr : rest.Nodup := (List.nodup_cons.mp hnd).2
    rw [runHosts, ih _ hndr]
    have hfilt : rest.filter (fun h => (stepHost fails a st h0).errors h == 0) =
        rest.filter (fun h => st.errors h == 0) := by
      apply List.filter_congr
      intro x hx
      have hxne : ¬ (x = h0) := fun hEq => hnd0 (hEq ▸ hx)
      rw [stepHost_errors, if_neg (fun hc => hxne hc.1)]
    rw [hfilt, stepHost_log]
    by_cases h0z : st.errors h0 = 0
    · simp [h0z, List.filter_cons, List.append_assoc]
    · simp [h0z, List.filter_cons]

/-- The outer loop splits over list append. -/
theorem runActions_append (fails : Nat → Nat → Bool) (nH : Nat) (st : WorkState)
    (l1 l2 : List Nat) :
    runActions fails nH st (l1 ++ l2) = runActions fails nH (runActions fails nH st l1) l2 := by
  induction l1 generalizing st with
  | nil => simp [runActions]
  | cons a rest ih => rw [List.cons_append, runActions, runActions, ih]

/-- Splitting the failure witness over the last action. -/
theorem hostFailedBy_succ (fails : Nat → Nat → Bool) (h k : Nat) :
    hostFailedBy fails h (k + 1) = (hostFailedBy fails h k || fails k h) := by
  unfold hostFailedBy
  rw [List.range_succ, List.any_append]
  simp

/-- The invariant of the run loop after the first k actions: a host carries
one error exactly when one of those actions failed on it, and an
action-host pair was dispatched exactly when the host is in range and no
earlier action failed on that host. -/
theorem work_invariant (fails : Nat → Nat → Bool) (nH : Nat) (k : Nat) :
    (∀ h, (runActions fails nH ⟨fun _ => 0, []⟩ (List.range k)).errors h =
        if h < nH ∧ hostFailedBy fails h k = true then 1 else 0) ∧
    (∀ a h, (a, h) ∈ (runActions fails nH ⟨fun _ => 0, []⟩ (List.range k)).log ↔
        a < k ∧ h < nH ∧ hostFailedBy fails h a = false) := by
  induction k with
  | zero =>
    constructor
    · intro h; simp [runActions, List.range_zero, hostFailedBy]
    · intro a h; simp [runActions, List.range_zero]
  | succ k ih =>
    rw [List.range_succ, runActions_append]
    set st := runActions fails nH ⟨fun _ => 0, []⟩ (List.range k) with hst
    have hrun : runActions fails nH st [k] = runHosts fails k st (List.range nH) := by
      rw [runActions, runActions]
    rw [hrun]
    constructor
    · intro h
      rw [runHosts_errors fails k (List.range nH) st (List.nodup_range nH) h, ih.1 h]
      rw [hostFailedBy_succ]
      by_cases hnh : h < nH
      · by_cases hfb : hostFailedBy fails h k = true
        · simp [hnh, hfb, List.mem_range]
        · rw [Bool.not_eq_true] at hfb
          by_cases hfk : fails k h = true
          · simp [hnh, hfb, hfk, List.mem_range]
          · rw [Bool.not_eq_true] at hfk
            simp [hnh, hfb, hfk, List.mem_range]
      · simp [hnh, List.mem_range]
    · intro a h
      rw [runHosts_log fails k (List.range nH) st (List.nodup_range nH)]
      rw [List.mem_append, ih.2 a h]
      simp only [List.mem_map, List.mem_filter, List.mem_range, beq_iff_eq]
      constructor
      · rintro (⟨hak, hnh, hfb⟩ | ⟨x, ⟨hx, hxz⟩, hpair⟩)
        · exact ⟨Nat.lt_succ_of_lt hak, hnh, hfb⟩
        · cases hpair
          rw [ih.1 h] at hxz
          refine ⟨Nat.lt_succ_self k, hx, ?_⟩
          by_cases hfb : hostFailedBy fails h k = true
          · rw [if_pos ⟨hx, hfb⟩] at hxz
            exact absurd hxz (by simp)
          · cases hb : hostFailedBy fails h k with
            | false => rfl
            | true => exact absurd hb hfb
      · rintro ⟨hak, hnh, hfb⟩
        rcases Nat.lt_succ_iff_lt_or_eq.mp hak with hlt | rfl
        · exact Or.inl ⟨hlt, hnh, hfb⟩
        · refine Or.inr ⟨h, ⟨hnh, ?_⟩, rfl⟩
          rw [ih.1 h, if_neg ?_]
          rintro ⟨_, hb⟩
          rw [hfb] at hb
          exact Bool.false_ne_true hb

/-- Python dict lookup, first matching key. -/
def dictLookup {α : Type} : List (String × α) → String → Option α
  | [], _ => Option.none
  | (k, v) :: rest, key => if k = key then some v else dictLookup rest key

/-- Python dict membership test. -/
def dictHasKey {α : Type} (d : List (String × α)) (k : String) : Bool :=
  d.any (fun kv => kv.1 == k)

/-- Python dict assignment: override in place when the key exists, append
otherwise. -/
def dictSet {α : Type} (d : List (String × α)) (k : String) (v : α) :
    List (String × α) :=
  if dictHasKey d k then d.map (fun kv => if kv.1 == k then (k, v) else kv)
  else d ++ [(k, v)]

/-- merge_dicts (utils.py): the double-splat merge, the second dict
overriding the first on key collision, new keys appended in order. -/
def merge_dicts {α : Type} (d1 d2 : List (String × α)) : List (String × α) :=
  d2.foldl (fun acc kv => dictSet acc kv.1 kv.2) d1

/-- The format characters of the stat query built by Host.execute_stat
(host.py line 288): fourteen fields. -/
def statChars : List Char :=
  ['a', 'A', 'F', 'g', 'G', 'i', 'n', 'N', 's', 'u', 'U', 'X', 'Y', 'Z']

def joinBar : List String → String
  | [] => ""
  | [s] => s
  | s :: rest => s ++ ("|" ++ joinBar rest)

/-- The pipe-joined format argument of the stat query. -/
def statFormat : String :=
  joinBar (statChars.map (fun c => String.singleton c ++ (":%" ++ String.singleton c)))

def splitCharsAux (sep : Char) : List Char → List Char → List (List Char)
  | cur, [] => [cur.reverse]
  | cur, c :: rest =>
    if c = sep then cur.reverse :: splitCharsAux sep [] rest
    else splitCharsAux sep (c :: cur) rest

/-- Python str.split with an explicit single-character separator. -/
def pySplit (s : String) (sep : Char) : List String :=
  (splitCharsAux sep [] s.data).map String.mk

/-- One token of the stat response, as taken apart by the dict
comprehension of host.py line 291: key before the first colon, value the
second colon-separated piece stripped of whitespace; a token without any
colon is a Python IndexError. -/
def parseStatToken (t : String) : Option (String × String) :=
  match pySplit t ':' with
  | k :: v :: _ => some (k, String.mk (trimChars v.data))
  | _ => Option.none

/-- The stat-response parser of Host.execute_stat: split the response on
pipes and build the field mapping token by token. -/
def parse_stat_response (response : String) : Option (List (String × String)) :=
  (pySplit response '|').foldl
    (fun acc t => acc.bind (fun d => (parseStatToken t).map (fun kv => dictSet d kv.1 kv.2)))
    (some [])

inductive DeployErr where
  | configError (param : String)
  | fileNotFound (source : String)
  | parseError
  | transportFailure
deriving DecidableEq

/-- Host.execute_stat (host.py lines 248-316). The runSsh oracle stands for
run_ssh on this host: it maps a remote command line to its captured output,
or to an error for a CalledProcessError (non-zero exit). The handler checks
the required register and extra path parameters, forces wrap_bash off, runs
the existence test, and on success runs the stat query and parses its
pipe-delimited response into the field mapping merged over exists true; a
failing test or stat call records exists false only. Each successful
run_ssh call also records its raw output under the register name, and the
final mapping overwrites it. A response token without a colon raises an
IndexError, which is not caught by the CalledProcessError handler and
propagates; the returned error represents it. -/
def execute_stat (runSsh : String → Except Unit String) (action : Action)
    (results : Results) (dir : Bool) : Results × Except DeployErr Action :=
  if action.register = "" then (results, .error (.configError "register"))
  else if !dictHasKey action.extra "path" then (results, .error (.configError "path"))
  else
    let action := { action with wrap_bash := false }
    let path := pyStrS ((dictLookup action.extra "path").getD .none)
    let testCmd := "test -" ++ (if dir then "d" else "e") ++ (" \"" ++ path ++ "\"")
    match runSsh testCmd with
    | .error _ =>
      (dictSet results action.register (.dict [("exists", .bool false)]), .ok action)
    | .ok out1 =>
      let results := dictSet results action.register (.scalar (.str out1))
      let statCmd := "stat --format=\"" ++ statFormat ++ "\"" ++ (" \"" ++ path ++ "\"")
      match runSsh statCmd with
      | .error _ =>
        (dictSet results action.register (.dict [("exists", .bool false)]), .ok action)
      | .ok response =>
        let results := dictSet results action.register (.scalar (.str response))
        match parse_stat_response response with
        | Option.none => (results, .error .parseError)
        | some fields =>
          let parsed := fields.map (fun kv => (kv.1, Scalar.str kv.2))
          (dictSet results action.register
            (.dict (merge_dicts [("exists", Scalar.bool true)] parsed)), .ok action)

def endsWithSlash (a : String) : Bool :=
  match a.data.getLast? with
  | some c => c = '/'
  | Option.none => false

/-- Python os.path.join for the two-argument POSIX cases used by
Host.execute_copy: an absolute second component discards the first. -/
def osPathJoin (a b : String) : String :=
  if pyStartswith b "/" then b
  else if a = "" then b
  else if endsWithSlash a then a ++ b
  else a ++ ("/" ++ b)

/-- The per-item loop of Host.execute_copy with run_rsync (host.py lines
318-359): resolve the item against the files folder, require it to exist
locally, build the rsync invocation of SSHClient.exec_rsync with empty
ssh_options and rsync_options, run it through the runRsync oracle, and
record the output under the register name when one is declared. Returns the
final registry and the rsync command lines run, in order. -/
def copyLoop (runRsync : String → Except Unit String) (isFile : String → Bool)
    (files_foldername ssh_user address : String) (action : Action)
    (destination : String) (results : Results) :
    List String → Results × Except DeployErr (List String)
  | [] => (results, .ok [])
  | item :: rest =>
    let source := osPathJoin files_foldername item
    if !isFile source then (results, .error (.fileNotFound source))
    else
      let cmd := exec_rsync_build action.timeout ssh_user address "" source destination
        action.become action.become_user
        (!(((dictLookup action.extra "force").getD (.bool false)).isTruthy))
        ((dictLookup action.extra "mode").getD (.str ""))
        (pyStrS ((dictLookup action.extra "owner").getD (.str "")))
        (pyStrS ((dictLookup action.extra "group").getD (.str "")))
      match runRsync cmd with
      | .error _ => (results, .error .transportFailure)
      | .ok out =>
        let results2 :=
          if action.register ≠ "" then dictSet results action.register (.scalar (.str out))
          else results
        let next := copyLoop runRsync isFile files_foldername ssh_user address action
          destination results2 rest
        (next.1, next.2.map (fun cmds => cmd :: cmds))

/-- Host.execute_copy (host.py lines 318-329): require the destination
extra parameter, then transfer each item in order. -/
def execute_copy (runRsync : String → Except Unit String) (isFile : String → Bool)
    (files_foldername ssh_user address : String) (action : Action)
    (results : Results) : Results × Except DeployErr (List String) :=
  if !dictHasKey action.extra "destination" then
    (results, .error (.configError "destination"))
  else
    let destination := pyStrS ((dictLookup action.extra "destination").getD .none)
    copyLoop runRsync isFile files_foldername ssh_user address action destination results
      action.items

/-- An example evaluator environment: the Python eval collaborator modelled
by the arithmetic evaluator, no result lookups, every remote path absent. -/
def exampleEnv : EvalEnv :=
  ⟨pyEvalArith, fun _ _ => .error .keyNotFound, fun _ _ => false⟩

/-- A pair of mutually self-referential context variables: a expands to the
placeholder for b and b expands to the placeholder for a. -/
def cycCtx : List (String × String) :=
  [("a", "\x7b\x7b b \x7d\x7d"), ("b", "\x7b\x7b a \x7d\x7d")]

/-- On the self-referential context the render loop makes no progress at
any fuel, from either of the two placeholder strings. -/
theorem cyc_diverges_aux : ∀ n,
    renderLoopS cycCtx n "\x7b\x7b a \x7d\x7d" = .ok Option.none ∧
    renderLoopS cycCtx n "\x7b\x7b b \x7d\x7d" = .ok Option.none := by
  intro n
  induction n with
  | zero => exact ⟨rfl, rfl⟩
  | succ m ih =>
    constructor
    · rw [renderLoopS]
      have h1 : substOnceS cycCtx "\x7b\x7b a \x7d\x7d" = .ok "\x7b\x7b b \x7d\x7d" := rfl
      simp only [h1]
      rw [if_neg (by decide)]
      exact ih.2
    · rw [renderLoopS]
      have h1 : substOnceS cycCtx "\x7b\x7b b \x7d\x7d" = .ok "\x7b\x7b a \x7d\x7d" := rfl
      simp only [h1]
      rw [if_neg (by decide)]
      exact ih.1

/-- Claim C6: when the substitution iteration of render_string reaches, at
any iteration, a string whose next rendering pass hits an undefined
variable, render fails: no fuel makes the loop return a string, and some
fuel makes it raise the strict-undefined error. -/
theorem render_undefined_fails (ctx : List (String × String)) (t u : String)
    (hr : Reaches ctx t u) (he : substOnceS ctx u = .error ()) :
    (∀ n s, renderLoopS ctx n t ≠ .ok (some s)) ∧
      (∃ n, renderLoopS ctx n t = .error ()) :=
  reaches_error_no_return hr he

/-- Witness for C6: the template referencing a, whose value references the
undefined b, never renders to a string. -/
theorem render_undefined_fails_witness :
    renderLoopS [("a", "\x7b\x7b b \x7d\x7d")] 2 "\x7b\x7b a \x7d\x7d" ≠ .ok (some "x") :=
  (render_undefined_fails [("a", "\x7b\x7b b \x7d\x7d")] "\x7b\x7b a \x7d\x7d"
    "\x7b\x7b b \x7d\x7d" (.step rfl (by decide) (.refl _)) rfl).1 2 "x"

/-- Claim C7: render is idempotent at its fixed point: when render_string
converges on a template, rendering the result again converges to the same
string. -/
theorem render_idempotent (ctx : List (String × String)) (t s : String)
    (h : renders ctx t s) : renders ctx s s := by
  obtain ⟨n, hn⟩ := h
  have hfix := renderLoopS_fix hn
  exact ⟨1, by simp [renderLoopS, hfix]⟩

/-- Witness for C7: the single-placeholder template renders to x, and x
renders to itself. -/
theorem render_idempotent_witness : renders [("a", "x")] "x" "x" :=
  render_idempotent [("a", "x")] "\x7b\x7b a \x7d\x7d" "x" ⟨2, rfl⟩

/-- Counterexample to claim C8: the substitution loop of render_string has
no bounded iteration cutoff and raises no UnstableTemplateError; on the
mutually self-referential context it neither returns nor raises at any
iteration count, so the while-True loop of the source never terminates. -/
theorem render_loop_unbounded_counterexample :
    renderDiverges cycCtx "\x7b\x7b a \x7d\x7d" :=
  fun n => (cyc_diverges_aux n).1

/-- Claim C8 as amended: render_string imposes no iteration bound and has
no UnstableTemplateError; its loop returns only by reaching a fixed point
of the substitution pass, and on mutually self-referential variables it
diverges instead of failing. -/
theorem render_loop_no_bound :
    (∀ ctx t n s, renderLoopS ctx n t = .ok (some s) → substOnceS ctx s = .ok s) ∧
      renderDiverges cycCtx "\x7b\x7b a \x7d\x7d" :=
  ⟨fun _ _ _ _ h => renderLoopS_fix h, fun n => (cyc_diverges_aux n).1⟩

/-- Witness for the amended C8: a converged render value is a substitution
fixed point, at a concrete input. -/
theorem render_loop_no_bound_witness : substOnceS [] "x" = .ok "x" :=
  render_loop_no_bound.1 [] "x" 1 "x" rfl

/-- Claim C4: whenever the rendered text of an expression starts with the
literal prefix of the eval branch, evaluate_expression returns the Python
evaluation of the inner text between the first opening and the first
closing parenthesis of the whole rendered text (so nested parentheses in
the argument are cut short); and on the spec example the result is 3. -/
theorem evaluate_eval_branch (env : EvalEnv) (dry_run : Bool)
    (ctx : List (String × String)) (results : Results) (fuel : Nat)
    (expression text : String) :
    (renderLoopS ctx fuel expression = .ok (some text) →
      pyStartswith text "eval(" = true →
      evaluate_expression env dry_run ctx results fuel expression =
        .ok (some (env.pyEval (extractInner text)))) ∧
    evaluate_expression exampleEnv false [] [] 1 "eval(1 + 2)" =
      .ok (some (.scalar (.int 3))) := by
  constructor
  · intro hr hs
    have h1 : pyStartswith text "results[" = false :=
      pyStartswith_excl2 "eval(" "results[" (by decide) (by decide) hs
    rw [evaluate_expression]
    simp only [hr]
    rw [evaluateRendered]
    simp [h1, hs, Except.map]
  · rfl

/-- Witness for C4: a second concrete eval expression, rendered to itself,
goes to the Python evaluation of its inner text. -/
theorem evaluate_eval_branch_witness :
    evaluate_expression exampleEnv false [] [] 1 "eval(4 + 5)" =
      .ok (some (exampleEnv.pyEval (extractInner "eval(4 + 5)"))) :=
  (evaluate_eval_branch exampleEnv false [] [] 1 "eval(4 + 5)" "eval(4 + 5)").1
    rfl (by decide)

/-- Claim C5: with a when expression whose evaluation returns a value, the
dispatcher skips the action exactly when the value is falsy and otherwise
enters the handler for the action type; with no when expression the handler
is always entered; and the falsy values are exactly the empty string,
False, 0, None and the empty mapping. -/
theorem run_action_when_guard (env : EvalEnv) (dry_run : Bool)
    (ctx : List (String × String)) (results : Results) (fuel : Nat)
    (action : Action) :
    (∀ v, action.when ≠ "" →
      evaluate_expression env dry_run ctx results fuel action.when = .ok (some v) →
      run_action_dispatch env dry_run ctx results fuel action =
        .ok (some (if v.isTruthy then .handler action.type else .skipped))) ∧
    (action.when = "" →
      run_action_dispatch env dry_run ctx results fuel action =
        .ok (some (.handler action.type))) ∧
    (∀ v : Value, v.isTruthy = false ↔
      (v = .scalar (.str "") ∨ v = .scalar (.bool false) ∨ v = .scalar (.int 0) ∨
        v = .scalar .none ∨ v = .dict [])) := by
  refine ⟨?_, ?_, ?_⟩
  · intro v hw he
    rw [run_action_dispatch, if_pos hw, he]
  · intro hw
    rw [run_action_dispatch, if_neg (by simp [hw])]
  · intro v
    cases v with
    | scalar sc =>
      cases sc with
      | str s => simp [Value.isTruthy, Scalar.isTruthy]
      | bool b => cases b <;> simp [Value.isTruthy, Scalar.isTruthy]
      | int n => simp [Value.isTruthy, Scalar.isTruthy]
      | none => simp [Value.isTruthy, Scalar.isTruthy]
    | dict d => cases d <;> simp [Value.isTruthy]

/-- Witness for C5: a when expression rendering to a plain nonempty string
is truthy, and the command handler is entered. -/
theorem run_action_when_guard_witness :
    run_action_dispatch exampleEnv false [] [] 1
        { when := "x", type := "command" } =
      .ok (some (if (Value.scalar (.str "x")).isTruthy then .handler "command"
        else .skipped)) :=
  (run_action_when_guard exampleEnv false [] [] 1
    { when := "x", type := "command" }).1 (.scalar (.str "x")) (by decide) rfl

/-- Claim C10: in dry-run mode the remote path existence check returns
false for every path without consulting the remote oracle, so an
expression rendering to one of the existence forms evaluates to False and
the negated forms evaluate to True, whatever the remote filesystem holds. -/
theorem dry_run_exists_false (env : EvalEnv) (ctx : List (String × String))
    (results : Results) (fuel : Nat) (expression text : String) :
    (∀ path dir, check_remote_path_exists env true path dir = false) ∧
    (renderLoopS ctx fuel expression = .ok (some text) →
      ((pyStartswith text "exists_dir(" = true →
        evaluate_expression env true ctx results fuel expression =
          .ok (some (.scalar (.bool false)))) ∧
       (pyStartswith text "exists_file(" = true →
        evaluate_expression env true ctx results fuel expression =
          .ok (some (.scalar (.bool false)))) ∧
       (pyStartswith text "not_exists_dir(" = true →
        evaluate_expression env true ctx results fuel expression =
          .ok (some (.scalar (.bool true)))) ∧
       (pyStartswith text "not_exists_file(" = true →
        evaluate_expression env true ctx results fuel expression =
          .ok (some (.scalar (.bool true)))))) := by
  constructor
  · intro path dir; rfl
  · intro hr
    refine ⟨?_, ?_, ?_, ?_⟩ <;> intro hs
    · have h1 : pyStartswith text "results[" = false :=
        pyStartswith_excl "exists_dir(" "results[" (by decide) (by decide) hs
      have h2 : pyStartswith text "eval(" = false :=
        pyStartswith_excl "exists_dir(" "eval(" (by decide) (by decide) hs
      have h3 : pyStartswith text "not_exists_dir(" = false :=
        pyStartswith_excl2 "exists_dir(" "not_exists_dir(" (by decide) (by decide) hs
      rw [evaluate_expression]
      simp only [hr]
      rw [evaluateRendered]
      simp [h1, h2, h3, hs, check_remote_path_exists, Except.map]
    · have h1 : pyStartswith text "results[" = false :=
        pyStartswith_excl "exists_file(" "results[" (by decide) (by decide) hs
      have h2 : pyStartswith text "eval(" = false :=
        pyStartswith_excl "exists_file(" "eval(" (by decide) (by decide) hs
      have h3 : pyStartswith text "not_exists_dir(" = false :=
        pyStartswith_excl2 "exists_file(" "not_exists_dir(" (by decide) (by decide) hs
      have h4 : pyStartswith text "exists_dir(" = false :=
        pyStartswith_excl "exists_file(" "exists_dir(" (by decide) (by decide) hs
      have h5 : pyStartswith text "not_exists_file(" = false :=
        pyStartswith_excl2 "exists_file(" "not_exists_file(" (by decide) (by decide) hs
      rw [evaluate_expression]
      simp only [hr]
      rw [evaluateRendered]
      simp [h1, h2, h3, h4, h5, hs, check_remote_path_exists, Except.map]
    · have h1 : pyStartswith text "results[" = false :=
        pyStartswith_excl "not_exists_dir(" "results[" (by decide) (by decide) hs
      have h2 : pyStartswith text "eval(" = false :=
        pyStartswith_excl "not_exists_dir(" "eval(" (by decide) (by decide) hs
      rw [evaluate_expression]
      simp only [hr]
      rw [evaluateRendered]
      simp [h1, h2, hs, check_remote_path_exists, Except.map]
    · have h1 : pyStartswith text "results[" = false :=
        pyStartswith_excl "not_exists_file(" "results[" (by decide) (by decide) hs
      have h2 : pyStartswith text "eval(" = false :=
        pyStartswith_excl "not_exists_file(" "eval(" (by decide) (by decide) hs
      have h3 : pyStartswith text "not_exists_dir(" = false :=
        pyStartswith_excl "not_exists_file(" "not_exists_dir(" (by decide) (by decide) hs
      have h4 : pyStartswith text "exists_dir(" = false :=
        pyStartswith_excl "not_exists_file(" "exists_dir(" (by decide) (by decide) hs
      rw [evaluate_expression]
      simp only [hr]
      rw [evaluateRendered]
      simp [h1, h2, h3, h4, hs, check_remote_path_exists, Except.map]

/-- Witness for C10: a concrete existence check under dry run evaluates to
False even though the remote oracle is irrelevant. -/
theorem dry_run_exists_false_witness :
    evaluate_expression exampleEnv true [] [] 1 "exists_dir(x)" =
      .ok (some (.scalar (.bool false))) :=
  ((dry_run_exists_false exampleEnv [] [] 1 "exists_dir(x)" "exists_dir(x)").2
    rfl).1 (by decide)

/-- Claim C2: for every command string, with become set, a nonempty
become_user and wrap_bash, exec_command builds the ssh transport invocation
(transport options, optional connect timeout, optional user-at-host
address) followed by a single double-quoted argument holding, in order, the
privilege-elevation prefix targeting become_user and then the shell-wrapped
cd-and-command inside a shell -c invocation, with every double quote of the
fully assembled inner command backslash-escaped after both wrapping and
elevation prefixing. -/
theorem exec_command_elevated_wrapped (ssh_options : String) (timeout : Nat)
    (ssh_user host command become_user : String) (hbu : become_user ≠ "") :
    exec_command_build ssh_options timeout ssh_user host (.str command) true
        become_user true =
      "ssh " ++ (if ssh_options ≠ "" then ssh_options ++ " " else "")
        ++ (if timeout ≠ 0 then "-o ConnectTimeout=" ++ toString timeout ++ " " else "")
        ++ remoteAddress ssh_user host
        ++ (" \"" ++ escapeQuotes (specSudo become_user ++ specBashWrap command)
            ++ "\"") := by
  have hinner : ("sudo -H --non-interactive " ++ ("-u " ++ become_user ++ " ")) ++
      ("/bin/bash -c \"cd && " ++ command ++ "\"") =
      specSudo become_user ++ specBashWrap command := by
    rw [specSudo, specBashWrap]
    rw [String.append_assoc "-u " become_user " "]
    rw [← String.append_assoc "sudo -H --non-interactive " "-u " (become_user ++ " ")]
    rw [String.append_assoc "/bin/bash -c \"cd && " command "\""]
    exact congrArg (fun z => z ++ (become_user ++ " ") ++
      ("/bin/bash -c \"cd && " ++ (command ++ "\""))) rfl
  rw [← hinner]
  simp [exec_command_build, hbu]

/-- Witness for C2: the spec example, become as the deploy user with the
bash wrap, on a concrete transport configuration. -/
theorem exec_command_elevated_wrapped_witness :
    exec_command_build "" 5 "master" "192.168.98.18" (.str "ls /tmp") true
        "deploy" true =
      "ssh " ++ (if ("" : String) ≠ "" then "" ++ " " else "")
        ++ (if 5 ≠ 0 then "-o ConnectTimeout=" ++ toString 5 ++ " " else "")
        ++ remoteAddress "master" "192.168.98.18"
        ++ (" \"" ++ escapeQuotes (specSudo "deploy" ++ specBashWrap "ls /tmp")
            ++ "\"") :=
  exec_command_elevated_wrapped "" 5 "master" "192.168.98.18" "ls /tmp" "deploy"
    (by decide)

/-- Claim C1: in the run loop, actions outer and hosts inner, an
action-host pair is dispatched exactly when the host index is in range and
no earlier action failed on that host, so once the error counter of a host
is positive no further action is dispatched to it while a host with zero
errors receives every subsequent action; and the final error counter of a
host depends only on that host: one exactly when some action failed on it,
zero otherwise. -/
theorem work_fail_fast (fails : Nat → Nat → Bool) (nA nH : Nat) :
    (∀ a h, (a, h) ∈ (work fails nA nH).log ↔
        (a < nA ∧ h < nH ∧ ∀ a2, a2 < a → fails a2 h = false)) ∧
    (∀ h, h < nH →
      ((work fails nA nH).errors h =
        if hostFailedBy fails h nA = true then 1 else 0) ∧
      (hostFailedBy fails h nA = true ↔ ∃ a, a < nA ∧ fails a h = true)) := by
  have hinv := work_invariant fails nH nA
  constructor
  · intro a h
    rw [work, hinv.2 a h]
    have hiff : hostFailedBy fails h a = false ↔ ∀ a2, a2 < a → fails a2 h = false := by
      unfold hostFailedBy
      rw [List.any_eq_false]
      constructor
      · intro hall a2 ha2
        have h2 := hall a2 (List.mem_range.mpr ha2)
        cases hf : fails a2 h with
        | false => rfl
        | true => exact absurd hf h2
      · intro hall x hx
        rw [hall x (List.mem_range.mp hx)]
        simp
    rw [hiff]
  · intro h hh
    constructor
    · rw [work, hinv.1 h]
      simp [hh]
    · unfold hostFailedBy
      rw [List.any_eq_true]
      constructor
      · rintro ⟨x, hx, hfx⟩
        exact ⟨x, List.mem_range.mp hx, hfx⟩
      · rintro ⟨x, hx, hfx⟩
        exact ⟨x, List.mem_range.mpr hx, hfx⟩

/-- Witness for C1: two actions over two hosts with the first action
failing on host zero only; host zero is not dispatched the second action,
host one is dispatched both, and the counters come out one and zero. -/
theorem work_fail_fast_witness :
    ((1, 0) ∈ (work (fun a h => a == 0 && h == 0) 2 2).log ↔
      (1 < 2 ∧ 0 < 2 ∧ ∀ a2, a2 < 1 → (a2 == 0 && (0 : Nat) == 0) = false)) ∧
    (work (fun a h => a == 0 && h == 0) 2 2).errors 0 = 1 ∧
    (work (fun a h => a == 0 && h == 0) 2 2).errors 1 = 0 := by
  refine ⟨(work_fail_fast (fun a h => a == 0 && h == 0) 2 2).1 1 0, ?_, ?_⟩
  · rw [((work_fail_fast (fun a h => a == 0 && h == 0) 2 2).2 0 (by decide)).1]
    decide
  · rw [((work_fail_fast (fun a h => a == 0 && h == 0) 2 2).2 1 (by decide)).1]
    decide

/-- A successful dict lookup implies the membership test succeeds. -/
theorem dictLookup_some_hasKey {α : Type} {d : List (String × α)} {k : String}
    {v : α} (h : dictLookup d k = some v) : dictHasKey d k = true := by
  induction d with
  | nil => simp [dictLookup] at h
  | cons kv rest ih =>
    obtain ⟨k1, v1⟩ := kv
    rw [dictLookup] at h
    by_cases hk : k1 = k
    · simp [dictHasKey, hk]
    · rw [if_neg hk] at h
      simp [dictHasKey, List.any_cons]
      exact Or.inr (by simpa [dictHasKey] using ih h)

/-- Merging a dict whose keys are all fresh and mutually distinct appends
its entries in order. -/
theorem merge_dicts_append {α : Type} (d1 d2 : List (String × α))
    (hnew : ∀ kv ∈ d2, dictHasKey d1 kv.1 = false)
    (hnd : (d2.map Prod.fst).Nodup) :
    merge_dicts d1 d2 = d1 ++ d2 := by
  induction d2 generalizing d1 with
  | nil => simp [merge_dicts]
  | cons kv rest ih =>
    obtain ⟨k, v⟩ := kv
    have hk : dictHasKey d1 k = false := hnew (k, v) (by simp)
    have hnd1 := hnd
    rw [List.map_cons] at hnd1
    have hknotin : k ∉ rest.map Prod.fst := (List.nodup_cons.mp hnd1).1
    have hnew2 : ∀ kv2 ∈ rest, dictHasKey (d1 ++ [(k, v)]) kv2.1 = false := by
      intro kv2 hkv2
      have hne : (k == kv2.1) = false := by
        rw [beq_eq_false_iff_ne]
        intro hEq
        exact hknotin (hEq ▸ List.mem_map_of_mem Prod.fst hkv2)
      have hd1 : dictHasKey d1 kv2.1 = false := hnew kv2 (List.mem_cons_of_mem _ hkv2)
      simp [dictHasKey, List.any_append, List.any_cons] at hd1 ⊢
      exact ⟨hd1, by simpa using hne⟩
    have hnd2 : (rest.map Prod.fst).Nodup := (List.nodup_cons.mp hnd1).2
    have hstep : merge_dicts d1 ((k, v) :: rest) = merge_dicts (d1 ++ [(k, v)]) rest := by
      rw [merge_dicts, merge_dicts, List.foldl_cons]
      have : dictSet d1 k v = d1 ++ [(k, v)] := by
        rw [dictSet, if_neg (by simp [hk])]
      rw [this]
    rw [hstep, ih _ hnew2 hnd2, List.append_assoc]
    rfl

/-- Writing the same key twice keeps only the last value, like repeated
Python dict assignment. -/
theorem dictSet_dictSet {α : Type} (d : List (String × α)) (k : String) (v1 v2 : α) :
    dictSet (dictSet d k v1) k v2 = dictSet d k v2 := by
  by_cases hk : dictHasKey d k = true
  · have h1 : dictSet d k v1 = d.map (fun kv => if kv.1 == k then (k, v1) else kv) := by
      rw [dictSet, if_pos hk]
    have h2 : dictHasKey (dictSet d k v1) k = true := by
      rw [h1, dictHasKey, List.any_map]
      rw [dictHasKey, List.any_eq_true] at hk
      obtain ⟨kv, hkv, hbeq⟩ := hk
      rw [List.any_eq_true]
      refine ⟨kv, hkv, ?_⟩
      simp only [Function.comp_apply]
      simp [hbeq]
    rw [dictSet, if_pos h2, h1, dictSet, if_pos hk, List.map_map]
    apply List.map_congr_left
    intro kv _
    by_cases hb : (kv.1 == k) = true
    · have hbe : kv.1 = k := beq_iff_eq.mp hb
      simp [Function.comp_apply, hbe]
    · have hbf : (kv.1 == k) = false := by simpa using hb
      have hne : ¬ (kv.1 = k) := by simpa using hbf
      simp [Function.comp_apply, hbf, hne]
  · have hkf : dictHasKey d k = false := by simpa using hk
    have hall : ∀ kv ∈ d, (kv.1 == k) = false := by
      rw [dictHasKey] at hkf
      intro kv hkv
      have := List.any_eq_false.mp hkf kv hkv
      simpa using this
    have h1 : dictSet d k v1 = d ++ [(k, v1)] := by
      rw [dictSet, if_neg (by simp [hkf])]
    have h2 : dictHasKey (d ++ [(k, v1)]) k = true := by
      simp [dictHasKey, List.any_append]
    rw [h1, dictSet, if_pos h2, dictSet, if_neg (by simp [hkf]), List.map_append]
    have h3 : d.map (fun kv => if kv.1 == k then (k, v2) else kv) = d := by
      have h4 : ∀ kv ∈ d,
          (fun kv : String × α => if kv.1 == k then (k, v2) else kv) kv = id kv := by
        intro kv hkv
        simp [hall kv hkv]
      rw [List.map_congr_left h4, List.map_id]
    rw [h3]
    simp

/-- The key exists of the stat result mapping differs from every
single-character field key. -/
theorem exists_ne_singleton (c : Char) :
    (("exists" : String) == String.singleton c) = false := by
  rw [beq_eq_false_iff_ne]
  intro h
  have h2 := congrArg String.data h
  have h3 : ("exists" : String).data = ['e', 'x', 'i', 's', 't', 's'] := rfl
  have h4 : (String.singleton c).data = [c] := rfl
  rw [h3, h4] at h2
  simp at h2

/-- Claim C3: the stat handler fails when register is missing, or when the
path extra parameter is missing; otherwise it forces wrap_bash off and,
when the remote existence test succeeds and the stat query response parses
into the fourteen single-character field keys, records under the register
name the mapping of exists true followed by all fourteen stat fields; when
the existence test fails it records exactly the one-key mapping exists
false. -/
theorem execute_stat_results (runSsh : String → Except Unit String)
    (action : Action) (results : Results) (dir : Bool) (p out1 resp : String)
    (fields : List (String × String)) :
    ((action.register = "" →
        (execute_stat runSsh action results dir).2 = .error (.configError "register")) ∧
     (action.register ≠ "" → dictHasKey action.extra "path" = false →
        (execute_stat runSsh action results dir).2 = .error (.configError "path"))) ∧
    (action.register ≠ "" →
      dictLookup action.extra "path" = some (.str p) →
      ((runSsh ("test -" ++ (if dir then "d" else "e") ++ (" \"" ++ p ++ "\"")) = .ok out1 →
        runSsh ("stat --format=\"" ++ statFormat ++ "\"" ++ (" \"" ++ p ++ "\"")) = .ok resp →
        parse_stat_response resp = some fields →
        fields.map Prod.fst = statChars.map (fun c => String.singleton c) →
        execute_stat runSsh action results dir =
          (dictSet results action.register
            (.dict (("exists", Scalar.bool true) ::
              fields.map (fun kv => (kv.1, Scalar.str kv.2)))),
           .ok { action with wrap_bash := false })) ∧
       (runSsh ("test -" ++ (if dir then "d" else "e") ++ (" \"" ++ p ++ "\"")) = .error () →
        execute_stat runSsh action results dir =
          (dictSet results action.register (.dict [("exists", Scalar.bool false)]),
           .ok { action with wrap_bash := false })))) := by
  refine ⟨⟨?_, ?_⟩, ?_⟩
  · intro hreg
    rw [execute_stat, if_pos hreg]
  · intro hreg hpk
    rw [execute_stat, if_neg hreg, if_pos (by simp [hpk])]
  · intro hreg hp
    have hhk : dictHasKey action.extra "path" = true := dictLookup_some_hasKey hp
    constructor
    · intro ht hs hparse hkeys
      have hkeys2 : (fields.map (fun kv => (kv.1, Scalar.str kv.2))).map Prod.fst =
          statChars.map (fun c => String.singleton c) := by
        rw [List.map_map]
        have hcomp : (Prod.fst ∘ fun kv : String × String => (kv.1, Scalar.str kv.2)) =
            Prod.fst := rfl
        rw [hcomp, hkeys]
      have hnew2 : ∀ kv ∈ fields.map (fun kv => (kv.1, Scalar.str kv.2)),
          dictHasKey [("exists", Scalar.bool true)] kv.1 = false := by
        intro kv hkv
        have hmem : kv.1 ∈ (fields.map fun kv => (kv.1, Scalar.str kv.2)).map Prod.fst :=
          List.mem_map_of_mem Prod.fst hkv
        rw [hkeys2] at hmem
        obtain ⟨c, _, hcEq⟩ := List.mem_map.mp hmem
        rw [← hcEq]
        simp [dictHasKey, List.any_cons, exists_ne_singleton c]
      have hnd2 : ((fields.map fun kv => (kv.1, Scalar.str kv.2)).map Prod.fst).Nodup := by
        rw [hkeys2]; decide
      have hmerge := merge_dicts_append [("exists", Scalar.bool true)]
        (fields.map (fun kv => (kv.1, Scalar.str kv.2))) hnew2 hnd2
      rw [execute_stat, if_neg hreg, if_neg (by simp [hhk])]
      simp only [hp, Option.getD_some, pyStrS]
      simp only [ht, hs, hparse, hmerge, List.singleton_append]
      rw [dictSet_dictSet, dictSet_dictSet]
    · intro htf
      rw [execute_stat, if_neg hreg, if_neg (by simp [hhk])]
      simp only [hp, Option.getD_some, pyStrS]
      simp only [htf]

/-- Concrete stat response used by the C3 witness. -/
def statRespExample : String :=
  "a:1|A:2|F:3|g:4|G:5|i:6|n:7|N:8|s:9|u:10|U:11|X:12|Y:13|Z:14"

/-- The parsed field list of the concrete stat response. -/
def statFieldsExample : List (String × String) :=
  [("a", "1"), ("A", "2"), ("F", "3"), ("g", "4"), ("G", "5"), ("i", "6"),
   ("n", "7"), ("N", "8"), ("s", "9"), ("u", "10"), ("U", "11"), ("X", "12"),
   ("Y", "13"), ("Z", "14")]

/-- A stat_file action registering under the name r. -/
def statActionExample : Action :=
  { type := "stat_file", register := "r", extra := [("path", .str "/tmp/x")] }

/-- A remote where the existence test succeeds and the stat query answers
with the concrete response. -/
def statRunSshExample : String → Except Unit String := fun cmd =>
  if cmd = "test -e \"/tmp/x\"" then .ok "" else .ok statRespExample

/-- Witness for C3: on the concrete present path the register holds exists
true followed by the fourteen parsed fields, and wrap_bash is forced off. -/
theorem execute_stat_results_witness :
    execute_stat statRunSshExample statActionExample [] false =
      (dictSet [] "r" (.dict (("exists", Scalar.bool true) ::
          statFieldsExample.map (fun kv => (kv.1, Scalar.str kv.2)))),
       .ok { statActionExample with wrap_bash := false }) :=
  ((execute_stat_results statRunSshExample statActionExample [] false "/tmp/x" ""
      statRespExample statFieldsExample).2 (by decide) rfl).1 rfl rfl rfl (by decide)

/-- The flag section of the rsync invocation before any elevation flag,
with the permission flag gated on the truthiness of the raw mode value. -/
def rsyncLeadingFlags (timeout : Nat) (ignore_existing : Bool)
    (mode : Scalar) (owner group : String) : String :=
  let c := "rsync -avz --progress "
  let c := c ++ (if timeout ≠ 0 then "--timeout=" ++ toString timeout ++ " " else "")
  let c := c ++ (if ignore_existing then "--ignore-existing " else "")
  let c := c ++ (if mode.isTruthy then "--chmod=\"" ++ pyStrS mode ++ "\" " else "")
  let chown := owner ++ ":" ++ group
  c ++ (if chown.length > 1 then "--chown=\"" ++ chown ++ "\" " else "")

/-- The privilege-elevation wrapper of the transfer: rsync on the remote
side is replaced by a sudo invocation of rsync as the target user, root by
default. -/
def rsyncElevation (user : String) : String :=
  "--rsync-path=\"sudo -u " ++ (if user ≠ "" then user else "root") ++ " rsync\" "

/-- The positional arguments of the transfer: the quoted local source, then
the quoted user-at-host colon destination, the remote side. -/
def rsyncPositional (ssh_user host source destination : String) : String :=
  ("\"" ++ source ++ "\" ") ++
    ("\"" ++ remoteAddress ssh_user host ++ ":" ++ destination ++ "\" ")

/-- Commands produced by the copy loop when every item resolves to an
existing file and every transfer succeeds. -/
theorem copyLoop_commands (out : String) (isFile : String → Bool)
    (files_foldername ssh_user address : String) (action : Action)
    (destination : String) (items : List String)
    (hfiles : ∀ item ∈ items, isFile (osPathJoin files_foldername item) = true) :
    ∀ results, (copyLoop (fun _ => .ok out) isFile files_foldername ssh_user address
        action destination results items).2 =
      .ok (items.map (fun item => exec_rsync_build action.timeout ssh_user address ""
        (osPathJoin files_foldername item) destination action.become action.become_user
        (!(((dictLookup action.extra "force").getD (.bool false)).isTruthy))
        ((dictLookup action.extra "mode").getD (.str ""))
        (pyStrS ((dictLookup action.extra "owner").getD (.str "")))
        (pyStrS ((dictLookup action.extra "group").getD (.str ""))))) := by
  induction items with
  | nil => intro results; rfl
  | cons item rest ih =>
    intro results
    have hf : isFile (osPathJoin files_foldername item) = true := hfiles item (by simp)
    have hrest : ∀ it ∈ rest, isFile (osPathJoin files_foldername it) = true :=
      fun it hit => hfiles it (List.mem_cons_of_mem _ hit)
    rw [copyLoop]
    rw [if_neg (by simp [hf])]
    simp only [ih hrest, Except.map, List.map_cons]

/-- Claim C9: the copy handler fails when the destination extra parameter
is missing; otherwise it resolves every item in order against the files
root and builds one rsync transfer per item, forwarding force inverted into
the skip-existing flag and mode, owner and group as override flags; and
with become the built invocation carries the elevation wrapper for the
remote rsync between the flag section and the positional source and
user-at-host destination arguments. -/
theorem execute_copy_forwarding (runRsync : String → Except Unit String)
    (out : String) (isFile : String → Bool)
    (files_foldername ssh_user address : String) (action : Action)
    (results : Results) (d : String) :
    (dictHasKey action.extra "destination" = false →
      (execute_copy runRsync isFile files_foldername ssh_user address action results).2 =
        .error (.configError "destination")) ∧
    (dictLookup action.extra "destination" = some (.str d) →
      (∀ item ∈ action.items, isFile (osPathJoin files_foldername item) = true) →
      (execute_copy (fun _ => .ok out) isFile files_foldername ssh_user address action
          results).2 =
        .ok (action.items.map (fun item => exec_rsync_build action.timeout ssh_user
          address "" (osPathJoin files_foldername item) d action.become action.become_user
          (!(((dictLookup action.extra "force").getD (.bool false)).isTruthy))
          ((dictLookup action.extra "mode").getD (.str ""))
          (pyStrS ((dictLookup action.extra "owner").getD (.str "")))
          (pyStrS ((dictLookup action.extra "group").getD (.str "")))))) ∧
    (∀ timeout su hostA source bu ig mode owner group,
      exec_rsync_build timeout su hostA "" source d true bu ig mode owner group =
        (rsyncLeadingFlags timeout ig mode owner group ++ rsyncElevation bu) ++
          rsyncPositional su hostA source d) := by
  refine ⟨?_, ?_, ?_⟩
  · intro hdf
    rw [execute_copy, if_pos (by simp [hdf])]
  · intro hdest hfiles
    have hhk := dictLookup_some_hasKey hdest
    rw [execute_copy, if_neg (by simp [hhk])]
    simp only [hdest, Option.getD_some, pyStrS]
    exact copyLoop_commands out isFile files_foldername ssh_user address action d
      action.items hfiles results
  · intro timeout su hostA source bu ig mode owner group
    simp [exec_rsync_build, rsyncLeadingFlags, rsyncElevation, rsyncPositional,
      String.append_assoc]

/-- A copy action with one item, forced overwrite and become as deploy. -/
def copyActionExample : Action :=
  { type := "copy", items := ["f1"], become := true, become_user := "deploy",
    extra := [("destination", .str "/opt"), ("force", .bool true)] }

/-- Witness for C9: the concrete copy action produces exactly one rsync
invocation for its item resolved under the files root. -/
theorem execute_copy_forwarding_witness :
    (execute_copy (fun _ => .ok "") (fun _ => true) "files" "master" "h1"
        copyActionExample []).2 =
      .ok (copyActionExample.items.map (fun item => exec_rsync_build
        copyActionExample.timeout "master" "h1" "" (osPathJoin "files" item) "/opt"
        copyActionExample.become copyActionExample.become_user
        (!(((dictLookup copyActionExample.extra "force").getD (.bool false)).isTruthy))
        ((dictLookup copyActionExample.extra "mode").getD (.str ""))
        (pyStrS ((dictLookup copyActionExample.extra "owner").getD (.str "")))
        (pyStrS ((dictLookup copyActionExample.extra "group").getD (.str ""))))) :=
  (execute_copy_forwarding (fun _ => .ok "") "" (fun _ => true) "files" "master" "h1"
    copyActionExample [] "/opt").2.1 rfl (by decide)

end MiniDeploy
